import Mathlib

/-!
Verification of the JSON-metrics-to-grouped-series transform and the
line-oriented device-config parsers of the `my-labs` repository.

The Python sources are shallowly embedded as executable Lean functions:

* `load_config_info`      — `src/chirop/plot_chirop5_power.py`, power-limit scan
* `load_timewindow_info`  — `src/chirop/plot_chirop5_timewindow.py`, time-window scan
* `extract_and_group_data`— `src/extract_metrics_to_csv.py`, record grouping
* `write_csv_files_sort`  — `src/extract_metrics_to_csv.py`, per-device timestamp sort
* `json_to_csv_grouping`  — `src/chirop/json_to_csv.py`, grouping loop
* `load_chirop5_data`     — `src/chirop/plot_chirop5_power.py` (same code in
                            `plot_chirop5_timewindow.py`), device-filtered series

Python strings are Lean `String`s (operations are implemented on `List Char`
for kernel-friendly evaluation), numbers are `ℚ`, caught exceptions are an
explicit aborted flag, uncaught ones an `Except` error.
-/

/-- Python exceptions that the modelled code can raise uncaught. -/
inductive PyErr where
  | typeError
  | attributeError
  | keyError
  deriving DecidableEq, Repr

/-- Character-list test: `pat` is a prefix of `s` (`str.startswith` on char lists). -/
def isPrefixL : List Char → List Char → Bool
  | [], _ => true
  | _ :: _, [] => false
  | c :: p, d :: s => c == d && isPrefixL p s

/-- Character-list substring test, scanning every suffix. -/
def containsL (p : List Char) : List Char → Bool
  | [] => isPrefixL p []
  | c :: s => isPrefixL p (c :: s) || containsL p s

/-- Python's `pat in s` substring containment on strings. -/
def strContains (s pat : String) : Bool :=
  containsL pat.data s.data

/-- Python's `s.split(':')`: split a character list at every colon. -/
def splitColon : List Char → List (List Char)
  | [] => [[]]
  | c :: rest =>
    if c == ':' then [] :: splitColon rest
    else
      match splitColon rest with
      | h :: t => (c :: h) :: t
      | [] => [[c]]

/-- Python's `s.strip()`: drop leading and trailing whitespace. -/
def trimL (l : List Char) : List Char :=
  ((l.dropWhile Char.isWhitespace).reverse.dropWhile Char.isWhitespace).reverse

/-- Remove the single underscores Python's `int` accepts between digits;
`none` when an underscore is misplaced or a non-digit appears. -/
def stripUnders : List Char → Option (List Char)
  | [] => some []
  | '_' :: c :: rest => if c.isDigit then stripUnders (c :: rest) else none
  | ['_'] => none
  | c :: rest => if c.isDigit then (stripUnders rest).map (c :: ·) else none

/-- Decimal value of a digit string as accepted by Python's `int` (digits with
single interior underscores); `none` on anything else. -/
def pyIntCore (l : List Char) : Option Nat :=
  match l with
  | [] => none
  | c :: _ =>
    if c.isDigit then
      (stripUnders l).map (fun ds => ds.foldl (fun a d => a * 10 + (d.toNat - 48)) 0)
    else none

/-- Python's `int(s)` on an already-stripped string: optional sign then digits. -/
def pyIntL : List Char → Option Int
  | '-' :: rest => (pyIntCore rest).map (fun n => -(n : Int))
  | '+' :: rest => (pyIntCore rest).map (fun n => (n : Int))
  | l => (pyIntCore l).map (fun n => (n : Int))

/-- Python's `int(line.split(':')[1].strip())` as used by both config parsers:
`none` models the raised `IndexError`/`ValueError`. -/
def pyParseValue (line : String) : Option Int :=
  ((splitColon line.data).get? 1).bind (fun seg => pyIntL (trimL seg))

/-- Python's `lines[i-1]` for `i` the current loop index: for `i = 0` the
negative index `-1` selects the LAST line of the file. -/
def pyPrev (lines : List String) (i : Nat) : String :=
  if i = 0 then lines.getLastD "" else lines.getD (i - 1) ""

/-- The two zone kinds tracked by `load_config_info`. -/
inductive Zone where
  | package
  | dram
  deriving DecidableEq, Repr

/-- Instrumentation record for `load_config_info`: one entry per firing of the
`'power_limit_uw:' in line and 'long_term' in lines[i-1]` test, carrying the
loop index, the `int()` result (`none` = `ValueError`), and which limit field
(if any) stored the converted value. -/
structure PLEvent where
  idx : Nat
  parsed : Option Int
  target : Option Zone
  deriving DecidableEq, Repr

/-- Loop state of `load_config_info`: the scan variables of the Python loop,
an `aborted` flag modelling the caught exception, and the event trace. -/
structure PLState where
  current_zone : Option Zone
  in_dram : Bool
  package_limit : Option ℚ
  dram_limit : Option ℚ
  aborted : Bool
  events : List PLEvent

/-- Zone detection of `load_config_info`'s loop body
(src/chirop/plot_chirop5_power.py lines 97-103): `if 'name: package-' in
line: … elif 'name: dram' in line: …`. -/
def plZone (line : String) (st : PLState) : PLState :=
  if strContains line "name: package-" then
    { st with current_zone := some Zone.package, in_dram := false }
  else if strContains line "name: dram" then
    { st with in_dram := true, current_zone := some Zone.dram }
  else st

/-- Extraction part of `load_config_info`'s loop body (lines 106-111), reached
when the `power_limit_uw:`/`long_term` test fired: run `int()` (a `ValueError`
aborts the scan), convert to watts, store into the first unpopulated matching
limit. Every firing appends one instrumentation event. -/
def plExtract (st : PLState) (i : Nat) (line : String) : PLState :=
  match pyParseValue line with
  | none => { st with aborted := true, events := st.events ++ [⟨i, none, none⟩] }
  | some v =>
    let w : ℚ := (v : ℚ) / 1000000
    if st.in_dram && st.dram_limit.isNone then
      { st with dram_limit := some w, events := st.events ++ [⟨i, some v, some Zone.dram⟩] }
    else if st.current_zone == some Zone.package && st.package_limit.isNone then
      { st with package_limit := some w,
                events := st.events ++ [⟨i, some v, some Zone.package⟩] }
    else { st with events := st.events ++ [⟨i, some v, none⟩] }

/-- Body of the `for i, line in enumerate(lines)` loop of `load_config_info`
(src/chirop/plot_chirop5_power.py lines 96-111). The `events` field only
records what happened and feeds no other field. -/
def plStep (lines : List String) (i : Nat) (line : String) (st : PLState) : PLState :=
  let st1 := plZone line st
  if strContains line "power_limit_uw:" && strContains (pyPrev lines i) "long_term" then
    plExtract st1 i line
  else st1

/-- The `for` loop of `load_config_info`, processing the sub-list `rem` that
starts at index `i`; an aborted state (raised exception) stops the loop. -/
def plRunFrom (lines : List String) : Nat → List String → PLState → PLState
  | _, [], st => st
  | i, l :: rest, st =>
    if st.aborted then st
    else plRunFrom lines (i + 1) rest (plStep lines i l st)

/-- Initial state of the `load_config_info` scan. -/
def plInit : PLState := ⟨none, false, none, none, false, []⟩

/-- Final scan state of `load_config_info` on the given lines. -/
def plFinal (lines : List String) : PLState :=
  plRunFrom lines 0 lines plInit

/-- `load_config_info` (src/chirop/plot_chirop5_power.py lines 73-117) on the
lines of an existing config file: the extracted package and DRAM power limits
in watts. Any exception is caught and the fields collected so far returned. -/
def load_config_info (lines : List String) : Option ℚ × Option ℚ :=
  ((plFinal lines).package_limit, (plFinal lines).dram_limit)

/-- Event trace of the `load_config_info` scan. -/
def plEvents (lines : List String) : List PLEvent :=
  (plFinal lines).events

/-- `load_config_info` at the file level: `none` models a missing file, whose
`FileNotFoundError` is caught and yields both fields absent. -/
def load_config_info_file : Option (List String) → Option ℚ × Option ℚ
  | none => (none, none)
  | some lines => load_config_info lines

/-- Loop state of `load_timewindow_info`: the two Python flags, the extracted
value (assignment happens together with `break`), and the caught-exception
flag. -/
structure TWState where
  in_package : Bool
  found_long_term : Bool
  result : Option Int
  aborted : Bool
  deriving DecidableEq, Repr

/-- The scan loop of `load_timewindow_info`
(src/chirop/plot_chirop5_timewindow.py lines 90-107): three prioritized
branches with `continue`, then `break` on the first successful extraction. -/
def twRun : List String → TWState → TWState
  | [], st => st
  | line :: rest, st =>
    if strContains line "name: package-0" then
      twRun rest { st with in_package := true }
    else if st.in_package && strContains line "name: long_term" then
      twRun rest { st with found_long_term := true }
    else if st.found_long_term && strContains line "time_window_us:" then
      match pyParseValue line with
      | some v => { st with result := some v }
      | none => { st with aborted := true }
    else twRun rest st

/-- Initial state of the `load_timewindow_info` scan. -/
def twInit : TWState := ⟨false, false, none, false⟩

/-- `load_timewindow_info` (src/chirop/plot_chirop5_timewindow.py lines 71-116)
on the lines of an existing config file: microseconds and milliseconds of the
first extracted time window; both absent when nothing is found or an exception
is caught. -/
def load_timewindow_info (lines : List String) : Option Int × Option ℚ :=
  match (twRun lines twInit).result with
  | some v => (some v, some ((v : ℚ) / 1000))
  | none => (none, none)

/-- `load_timewindow_info` at the file level: `none` models a missing file. -/
def load_timewindow_info_file : Option (List String) → Option Int × Option ℚ
  | none => (none, none)
  | some lines => load_timewindow_info lines

/-- Index of the first list element satisfying `p`. -/
def firstIdx (p : String → Bool) : List String → Option Nat
  | [] => none
  | l :: rest => if p l then some 0 else (firstIdx p rest).map (· + 1)

/-- Line contains the `name: package-0` marker. -/
def pkgB (l : String) : Bool := strContains l "name: package-0"

/-- Line contains the `name: long_term` marker. -/
def ltB (l : String) : Bool := strContains l "name: long_term"

/-- Line contains the `time_window_us:` marker. -/
def twB (l : String) : Bool := strContains l "time_window_us:"

/-- Line that arms the long-term flag: it contains `name: long_term` and is
not consumed by the higher-priority `name: package-0` branch. -/
def armB (l : String) : Bool := ltB l && !pkgB l

/-- Line whose `time_window_us:` branch fires: it contains the marker and is
not consumed by either higher-priority branch. -/
def fireB (l : String) : Bool := twB l && !ltB l && !pkgB l

/-- Declarative reading of the time-window state machine: the first
`name: package-0` line enters the package zone; after it, the first line that
arms the long-term flag; after that, the first line whose `time_window_us:`
branch fires is parsed and the scan stops. The negated conjuncts express that
the earlier branches of the loop take priority and `continue`. -/
def specTW (lines : List String) : Option Int :=
  match firstIdx pkgB lines with
  | none => none
  | some i0 =>
    let r1 := lines.drop (i0 + 1)
    match firstIdx armB r1 with
    | none => none
    | some i1 =>
      let r2 := r1.drop (i1 + 1)
      match firstIdx fireB r2 with
      | none => none
      | some i2 => pyParseValue (r2.getD i2 "")

/-- Parsed JSON documents as handed around by `json.load`: `null` is kept as a
constructor but `pyGet` conflates it with an absent key, exactly as Python's
`dict.get` returning `None` does. Numbers are exact rationals. -/
inductive Json where
  | null
  | bool (b : Bool)
  | num (q : ℚ)
  | str (s : String)
  | arr (elts : List Json)
  | obj (fields : List (String × Json))

/-- Python truthiness of a JSON value (`if value:`). -/
def jsonTruthy : Json → Bool
  | Json.null => false
  | Json.bool b => b
  | Json.num q => decide (q ≠ 0)
  | Json.str s => s ≠ ""
  | Json.arr xs => !xs.isEmpty
  | Json.obj fs => !fs.isEmpty

/-- Raw dictionary lookup; on duplicate keys `json.load` keeps the last one. -/
def objGet (fields : List (String × Json)) (k : String) : Option Json :=
  fields.foldl (fun acc p => if p.1 = k then some p.2 else acc) none

/-- Python's `record.get(k)` on a dict produced by `json.load`: both an absent
key and a JSON `null` value come back as Python `None`, modelled as `none`. -/
def pyGet (fields : List (String × Json)) (k : String) : Option Json :=
  match objGet fields k with
  | some Json.null => none
  | o => o

/-- Truthiness of a `dict.get` result (`None` is falsy). -/
def pyTruthyO : Option Json → Bool
  | none => false
  | some j => jsonTruthy j

/-- Python hashability of a JSON value: lists and dicts raise `TypeError` when
used as dictionary keys. -/
def pyHashable : Json → Bool
  | Json.arr _ => false
  | Json.obj _ => false
  | _ => true

/-- The value is a JSON object (a Python dict). -/
def isObjB : Json → Bool
  | Json.obj _ => true
  | _ => false

/-- Python `for record in data`: arrays yield their elements, dicts their keys,
strings their characters, and everything else raises `TypeError`. -/
def pyIterList : Json → Except PyErr (List Json)
  | Json.arr xs => Except.ok xs
  | Json.obj fs => Except.ok (fs.map (fun p => Json.str p.1))
  | Json.str s => Except.ok (s.data.map (fun c => Json.str (String.mk [c])))
  | _ => Except.error PyErr.typeError

/-- Python `==` between two values usable as dict keys (`True == 1` holds). -/
def scalarEq : Json → Json → Bool
  | Json.null, Json.null => true
  | Json.str a, Json.str b => a == b
  | Json.bool a, Json.bool b => a == b
  | Json.bool a, Json.num q => decide ((if a then (1 : ℚ) else 0) = q)
  | Json.num q, Json.bool b => decide (q = if b then (1 : ℚ) else 0)
  | Json.num p, Json.num q => decide (p = q)
  | _, _ => false

/-- One grouped record of `extract_and_group_data`:
`{'timestamp': timestamp, 'power_watt': value}`. -/
structure GRec where
  timestamp : Json
  power_watt : Json

/-- The `defaultdict(list)` of `extract_and_group_data`, with Python's
insertion-ordered keys made explicit as an association list. -/
abbrev GroupState := List (Json × List GRec)

/-- `grouped_data[device_id].append(rec)` on a `defaultdict(list)`: append to
the matching key, or add a new key at the end. -/
def addToGroup (g : GroupState) (k : Json) (r : GRec) : GroupState :=
  match g with
  | [] => [(k, [r])]
  | (k', rs) :: rest =>
    if scalarEq k' k then (k', rs ++ [r]) :: rest
    else (k', rs) :: addToGroup rest k r

/-- The record loop of `extract_and_group_data`
(src/extract_metrics_to_csv.py lines 33-46): `.get` the three fields, include
the record iff `device_id and timestamp and value is not None`, else skip it.
A non-dict element raises `AttributeError`; an unhashable `device_id` of an
included record raises `TypeError`. -/
def processRecords : List Json → GroupState → Except PyErr GroupState
  | [], g => Except.ok g
  | r :: rest, g =>
    match r with
    | Json.obj fs =>
      match pyGet fs "device_id", pyGet fs "timestamp", pyGet fs "value" with
      | some d, some t, some v =>
        if jsonTruthy d && jsonTruthy t then
          if pyHashable d then processRecords rest (addToGroup g d ⟨t, v⟩)
          else Except.error PyErr.typeError
        else processRecords rest g
      | _, _, _ => processRecords rest g
    | _ => Except.error PyErr.attributeError

/-- `extract_and_group_data` (src/extract_metrics_to_csv.py lines 29-47):
group the parsed JSON document by `device_id`, skipping incomplete records. -/
def extract_and_group_data (data : Json) : Except PyErr GroupState :=
  match pyIterList data with
  | Except.error e => Except.error e
  | Except.ok xs => processRecords xs []

/-- A record passes the required-fields check of `extract_and_group_data`. -/
def validRecordB (j : Json) : Bool :=
  match j with
  | Json.obj fs =>
    pyTruthyO (pyGet fs "device_id") && pyTruthyO (pyGet fs "timestamp") &&
      (pyGet fs "value").isSome
  | _ => false

/-- The `device_id` value of a record (default `null` when inapplicable). -/
def didD (j : Json) : Json :=
  match j with
  | Json.obj fs => (pyGet fs "device_id").getD Json.null
  | _ => Json.null

/-- The grouped projection of a record:
`{'timestamp': …, 'power_watt': …}` with `null` defaults when inapplicable. -/
def grecD (j : Json) : GRec :=
  match j with
  | Json.obj fs => ⟨(pyGet fs "timestamp").getD Json.null, (pyGet fs "value").getD Json.null⟩
  | _ => ⟨Json.null, Json.null⟩

/-- Declarative form of the grouping loop on pre-validated records: fold the
valid records into the grouping, skipping invalid ones. -/
def specGroup (g : GroupState) : List Json → GroupState
  | [] => g
  | j :: rest =>
    if validRecordB j then specGroup (addToGroup g (didD j) (grecD j)) rest
    else specGroup g rest

/-- An included record's `device_id` is hashable (vacuous for skipped ones). -/
def hashIdB (j : Json) : Bool :=
  !validRecordB j || pyHashable (didD j)

/-- Total number of grouped records across all devices. -/
def totalLen (g : GroupState) : Nat :=
  (g.map (fun p => p.2.length)).sum

/-- Timestamp sort key of a grouped record: Python compares the timestamp
strings themselves; non-strings (which would raise `TypeError`) are mapped to
`""` and are covered by no theorem. -/
def tsKey (j : Json) : String :=
  match j with
  | Json.str s => s
  | _ => ""

/-- The comparison underlying `records.sort(key=lambda x: x['timestamp'])`. -/
def tsle (a b : GRec) : Prop :=
  tsKey a.timestamp ≤ tsKey b.timestamp

instance : DecidableRel tsle := fun a b => by
  unfold tsle; infer_instance

/-- Python's `list.sort` is stable; a stable sort is modelled by insertion
sort, which agrees with Timsort on sortedness and stability. -/
def sortSeries (rs : List GRec) : List GRec :=
  rs.insertionSort tsle

/-- The sorting step of `write_csv_files` (src/extract_metrics_to_csv.py
lines 57-73): each device's series is sorted by timestamp in place. -/
def write_csv_files_sort (g : GroupState) : GroupState :=
  g.map (fun p => (p.1, sortSeries p.2))

/-- The grouping loop of `json_to_csv` (src/chirop/json_to_csv.py lines 29-32):
`devices_data[entry['device_id']].append(entry)` with NO required-field check;
a missing `device_id` raises `KeyError`, and the whole entry is stored. -/
def jcProcess : List Json → List (Json × List Json) → Except PyErr (List (Json × List Json))
  | [], g => Except.ok g
  | e :: rest, g =>
    match e with
    | Json.obj fs =>
      match objGet fs "device_id" with
      | some d =>
        if pyHashable d then jcProcess rest (jcAdd g d e)
        else Except.error PyErr.typeError
      | none => Except.error PyErr.keyError
    | _ => Except.error PyErr.typeError
where
  /-- `defaultdict(list)` append for `json_to_csv`. -/
  jcAdd (g : List (Json × List Json)) (k : Json) (e : Json) : List (Json × List Json) :=
    match g with
    | [] => [(k, [e])]
    | (k', es) :: rest =>
      if scalarEq k' k then (k', es ++ [e]) :: rest
      else (k', es) :: jcAdd rest k e

/-- Grouping phase of `json_to_csv` on a parsed JSON document. -/
def json_to_csv_grouping (data : Json) : Except PyErr (List (Json × List Json)) :=
  match pyIterList data with
  | Except.error e => Except.error e
  | Except.ok xs => jcProcess xs []

/-- Python `==` against the string literal `'chirop-5'`: equal strings compare
equal, every other value compares unequal without an exception. -/
def pyEqStr (j : Json) (s : String) : Bool :=
  match j with
  | Json.str t => t == s
  | _ => false

/-- Python `abs(value)` for a JSON value: numbers (and booleans, which are
numeric in Python) have an absolute value, everything else raises. -/
def pyAbs : Json → Option ℚ
  | Json.num q => some |q|
  | Json.bool b => some (if b then 1 else 0)
  | _ => none

/-- The entry loop of `load_chirop5_data` (src/chirop/plot_chirop5_power.py
lines 61-68, identical in plot_chirop5_timewindow.py): keep entries whose
`device_id` equals `'chirop-5'`, collect their timestamps and `abs(value)`s in
source order. `datetime.fromisoformat` is modelled as an injective embedding,
representing the parsed datetime by its source string; it raises `TypeError`
on a non-string. A missing key raises `KeyError`. -/
def lcProcess : List Json → Except PyErr (List String × List ℚ)
  | [] => Except.ok ([], [])
  | e :: rest =>
    match e with
    | Json.obj fs =>
      match objGet fs "device_id" with
      | none => Except.error PyErr.keyError
      | some d =>
        if pyEqStr d "chirop-5" then
          match objGet fs "timestamp" with
          | none => Except.error PyErr.keyError
          | some (Json.str ts) =>
            match objGet fs "value" with
            | none => Except.error PyErr.keyError
            | some v =>
              match pyAbs v with
              | none => Except.error PyErr.typeError
              | some a => (lcProcess rest).map (fun p => (ts :: p.1, a :: p.2))
          | some _ => Except.error PyErr.typeError
        else lcProcess rest
    | _ => Except.error PyErr.typeError

/-- `load_chirop5_data` on a parsed JSON document: the two parallel lists
`(timestamps, power_values)` for device `chirop-5`. -/
def load_chirop5_data (data : Json) : Except PyErr (List String × List ℚ) :=
  match pyIterList data with
  | Except.error e => Except.error e
  | Except.ok xs => lcProcess xs

/-- Positional soundness of a power-limit extraction event: the line at the
event's index contains `power_limit_uw:` and the Python-indexed previous line
(`lines[i-1]`, the LAST line when `i = 0`) contains `long_term`. -/
def plEventOk (lines : List String) (e : PLEvent) : Prop :=
  strContains (lines.getD e.idx "") "power_limit_uw:" = true ∧
    strContains (pyPrev lines e.idx) "long_term" = true

/-- Origination invariant of the power-limit scan: every populated limit field
was stored by some recorded event, as the parsed microwatt value divided by
one million. -/
def plOrigin (st : PLState) : Prop :=
  (∀ q, st.package_limit = some q →
    ∃ e ∈ st.events, e.target = some Zone.package ∧
      ∃ v, e.parsed = some v ∧ q = (v : ℚ) / 1000000) ∧
  (∀ q, st.dram_limit = some q →
    ∃ e ∈ st.events, e.target = some Zone.dram ∧
      ∃ v, e.parsed = some v ∧ q = (v : ℚ) / 1000000)

/-- An element of the iterated input that makes `extract_and_group_data`
raise: a non-dict element, or a validated record whose `device_id` cannot be
a dictionary key. -/
def elemErrB (j : Json) : Bool :=
  !(isObjB j && hashIdB j)

/-- The grouped record's timestamp is exactly the string `t`. -/
def tsIsB (t : String) (r : GRec) : Bool :=
  match r.timestamp with
  | Json.str s => s == t
  | _ => false

/-- The field is typed as the spec's data model expects: absent, `null`, or a
string. -/
def strOrNullFieldB (fs : List (String × Json)) (k : String) : Bool :=
  match objGet fs k with
  | none => true
  | some Json.null => true
  | some (Json.str _) => true
  | some _ => false

/-- A record whose `device_id` and `timestamp` follow the spec's data model
(string, possibly absent or `null`). -/
def typedRecB (j : Json) : Bool :=
  match j with
  | Json.obj fs => strOrNullFieldB fs "device_id" && strOrNullFieldB fs "timestamp"
  | _ => false

/-- The field is present, non-`null`, and a non-empty string. -/
def nonEmptyStrFieldB (fs : List (String × Json)) (k : String) : Bool :=
  match pyGet fs k with
  | some (Json.str s) => s ≠ ""
  | _ => false

/-- The entry's `device_id` compares equal to `'chirop-5'`. -/
def isChirop5B (j : Json) : Bool :=
  match j with
  | Json.obj fs =>
    match objGet fs "device_id" with
    | some d => pyEqStr d "chirop-5"
    | none => false
  | _ => false

/-- The entry can be processed by `load_chirop5_data` without an exception:
it is a dict with a `device_id`, and when that id is `chirop-5` its timestamp
is a string and its value numeric. -/
def lcOkB (j : Json) : Bool :=
  match j with
  | Json.obj fs =>
    match objGet fs "device_id" with
    | none => false
    | some d =>
      !pyEqStr d "chirop-5" ||
        ((match objGet fs "timestamp" with
          | some (Json.str _) => true
          | _ => false) &&
         (match objGet fs "value" with
          | some v => (pyAbs v).isSome
          | _ => false))
  | _ => false

/-- The timestamp `load_chirop5_data` collects from an entry (`none` when the
entry is filtered out). -/
def lcTs (j : Json) : Option String :=
  match j with
  | Json.obj fs =>
    if isChirop5B j then
      match objGet fs "timestamp" with
      | some (Json.str s) => some s
      | _ => none
    else none
  | _ => none

/-- The absolute power value `load_chirop5_data` collects from an entry. -/
def lcVal (j : Json) : Option ℚ :=
  match j with
  | Json.obj fs =>
    if isChirop5B j then
      match objGet fs "value" with
      | some v => pyAbs v
      | _ => none
    else none
  | _ => none

theorem drop_cons_getD {α : Type} (d : α) :
    ∀ (l : List α) (i : Nat) (a : α) (rest : List α),
      l.drop i = a :: rest → l.getD i d = a ∧ l.drop (i + 1) = rest := by
  intro l
  induction l with
  | nil => intro i a rest h; simp at h
  | cons x tl ih =>
    intro i a rest h
    cases i with
    | zero =>
      simp only [List.drop_zero] at h
      cases h
      exact ⟨rfl, by simp⟩
    | succ n =>
      have h' : tl.drop n = a :: rest := h
      obtain ⟨g1, g2⟩ := ih n a rest h'
      exact ⟨g1, g2⟩

theorem plZone_events (l : String) (st : PLState) : (plZone l st).events = st.events := by
  unfold plZone
  split
  · rfl
  · split <;> rfl

theorem plZone_package_limit (l : String) (st : PLState) :
    (plZone l st).package_limit = st.package_limit := by
  unfold plZone
  split
  · rfl
  · split <;> rfl

theorem plZone_dram_limit (l : String) (st : PLState) :
    (plZone l st).dram_limit = st.dram_limit := by
  unfold plZone
  split
  · rfl
  · split <;> rfl

theorem plZone_aborted (l : String) (st : PLState) : (plZone l st).aborted = st.aborted := by
  unfold plZone
  split
  · rfl
  · split <;> rfl

theorem plExtract_events_mem (st : PLState) (i : Nat) (line : String) :
    ∀ e ∈ (plExtract st i line).events, e ∈ st.events ∨ e.idx = i := by
  intro e he
  unfold plExtract at he
  split at he
  · simp at he
    rcases he with he | he
    · exact Or.inl he
    · subst he; exact Or.inr rfl
  · split at he
    · simp at he
      rcases he with he | he
      · exact Or.inl he
      · subst he; exact Or.inr rfl
    · split at he
      · simp at he
        rcases he with he | he
        · exact Or.inl he
        · subst he; exact Or.inr rfl
      · simp at he
        rcases he with he | he
        · exact Or.inl he
        · subst he; exact Or.inr rfl

theorem plStep_events_ok (lines : List String) (i : Nat) (l : String) (st : PLState)
    (hl : lines.getD i "" = l) (hst : ∀ e ∈ st.events, plEventOk lines e) :
    ∀ e ∈ (plStep lines i l st).events, plEventOk lines e := by
  intro e he
  unfold plStep at he
  by_cases hc : (strContains l "power_limit_uw:" && strContains (pyPrev lines i) "long_term") = true
  · rw [if_pos hc] at he
    rcases plExtract_events_mem (plZone l st) i l e he with hm | hm
    · rw [plZone_events] at hm
      exact hst e hm
    · refine ⟨?_, ?_⟩
      · rw [hm, hl]
        exact (Bool.and_eq_true _ _ |>.mp hc).1
      · rw [hm]
        exact (Bool.and_eq_true _ _ |>.mp hc).2
  · rw [if_neg hc] at he
    rw [plZone_events] at he
    exact hst e he

theorem plRunFrom_events_ok (lines : List String) :
    ∀ (rem : List String) (i : Nat) (st : PLState),
      lines.drop i = rem → (∀ e ∈ st.events, plEventOk lines e) →
      ∀ e ∈ (plRunFrom lines i rem st).events, plEventOk lines e := by
  intro rem
  induction rem with
  | nil => intro i st _ hst; exact hst
  | cons l rest ih =>
    intro i st hdrop hst
    obtain ⟨hget, hdrop'⟩ := drop_cons_getD "" lines i l rest hdrop
    show ∀ e ∈ (if st.aborted then st else
        plRunFrom lines (i + 1) rest (plStep lines i l st)).events, plEventOk lines e
    split
    · exact hst
    · exact ih (i + 1) (plStep lines i l st) hdrop' (plStep_events_ok lines i l st hget hst)

theorem plEvents_ok (lines : List String) : ∀ e ∈ plEvents lines, plEventOk lines e := by
  intro e he
  exact plRunFrom_events_ok lines lines 0 plInit rfl (by intro e h; simp [plInit] at h) e he

theorem plZone_origin (l : String) (st : PLState) (h : plOrigin st) : plOrigin (plZone l st) := by
  unfold plOrigin at h ⊢
  rw [plZone_events, plZone_package_limit, plZone_dram_limit]
  exact h

theorem plExtract_origin (st : PLState) (i : Nat) (line : String) (h : plOrigin st) :
    plOrigin (plExtract st i line) := by
  obtain ⟨hp, hd⟩ := h
  unfold plExtract
  split
  · exact ⟨by
      intro q hq
      obtain ⟨e, he, h1, v, h2, h3⟩ := hp q hq
      exact ⟨e, List.mem_append_left _ he, h1, v, h2, h3⟩, by
      intro q hq
      obtain ⟨e, he, h1, v, h2, h3⟩ := hd q hq
      exact ⟨e, List.mem_append_left _ he, h1, v, h2, h3⟩⟩
  · rename_i v _
    split
    · refine ⟨?_, ?_⟩
      · intro q hq
        obtain ⟨e, he, h1, w, h2, h3⟩ := hp q hq
        exact ⟨e, List.mem_append_left _ he, h1, w, h2, h3⟩
      · intro q hq
        simp only [Option.some_inj] at hq
        refine ⟨⟨i, some v, some Zone.dram⟩, List.mem_append_right _ (by simp), rfl, v, rfl, ?_⟩
        rw [← hq]
    · split
      · refine ⟨?_, ?_⟩
        · intro q hq
          simp only [Option.some_inj] at hq
          refine ⟨⟨i, some v, some Zone.package⟩, List.mem_append_right _ (by simp), rfl, v, rfl,
            ?_⟩
          rw [← hq]
        · intro q hq
          obtain ⟨e, he, h1, w, h2, h3⟩ := hd q hq
          exact ⟨e, List.mem_append_left _ he, h1, w, h2, h3⟩
      · refine ⟨?_, ?_⟩
        · intro q hq
          obtain ⟨e, he, h1, w, h2, h3⟩ := hp q hq
          exact ⟨e, List.mem_append_left _ he, h1, w, h2, h3⟩
        · intro q hq
          obtain ⟨e, he, h1, w, h2, h3⟩ := hd q hq
          exact ⟨e, List.mem_append_left _ he, h1, w, h2, h3⟩

theorem plStep_origin (lines : List String) (i : Nat) (l : String) (st : PLState)
    (h : plOrigin st) : plOrigin (plStep lines i l st) := by
  unfold plStep
  split
  · exact plExtract_origin _ i l (plZone_origin l st h)
  · exact plZone_origin l st h

theorem plRunFrom_origin (lines : List String) :
    ∀ (rem : List String) (i : Nat) (st : PLState),
      plOrigin st → plOrigin (plRunFrom lines i rem st) := by
  intro rem
  induction rem with
  | nil => intro i st h; exact h
  | cons l rest ih =>
    intro i st h
    show plOrigin (if st.aborted then st else plRunFrom lines (i + 1) rest (plStep lines i l st))
    split
    · exact h
    · exact ih (i + 1) _ (plStep_origin lines i l st h)

theorem plFinal_origin (lines : List String) : plOrigin (plFinal lines) := by
  refine plRunFrom_origin lines lines 0 plInit ⟨?_, ?_⟩ <;>
    · intro q hq
      simp [plInit] at hq

theorem plRunFrom_aborted_fix (lines : List String) :
    ∀ (rem : List String) (i : Nat) (st : PLState),
      st.aborted = true → plRunFrom lines i rem st = st := by
  intro rem
  cases rem with
  | nil => intro i st _; rfl
  | cons l rest =>
    intro i st h
    show (if st.aborted then st else _) = st
    rw [h]
    simp

theorem plRunFrom_append_of_abort (lines : List String) :
    ∀ (rem₁ : List String) (i : Nat) (st : PLState) (rem₂ : List String),
      (plRunFrom lines i rem₁ st).aborted = true →
      plRunFrom lines i (rem₁ ++ rem₂) st = plRunFrom lines i rem₁ st := by
  intro rem₁
  induction rem₁ with
  | nil =>
    intro i st rem₂ h
    exact plRunFrom_aborted_fix lines rem₂ i st h
  | cons l rest ih =>
    intro i st rem₂ h
    show (if st.aborted then st else plRunFrom lines (i + 1) (rest ++ rem₂) (plStep lines i l st)) =
      plRunFrom lines i (l :: rest) st
    by_cases hab : st.aborted = true
    · rw [if_pos hab]
      exact (plRunFrom_aborted_fix lines (l :: rest) i st hab).symm
    · rw [if_neg hab]
      have h' : (plRunFrom lines (i + 1) rest (plStep lines i l st)).aborted = true := by
        have hr : plRunFrom lines i (l :: rest) st =
            plRunFrom lines (i + 1) rest (plStep lines i l st) := by
          show (if st.aborted then st else _) = _
          rw [if_neg hab]
        rw [hr] at h
        exact h
      rw [ih (i + 1) (plStep lines i l st) rem₂ h']
      show _ = (if st.aborted then st else _)
      rw [if_neg hab]

theorem load_config_info_none_of_no_store (lines : List String)
    (h : ∀ e ∈ plEvents lines, e.target = none) :
    load_config_info lines = (none, none) := by
  obtain ⟨hp, hd⟩ := plFinal_origin lines
  unfold load_config_info
  have h1 : (plFinal lines).package_limit = none := by
    cases hq : (plFinal lines).package_limit with
    | none => rfl
    | some q =>
      obtain ⟨e, he, h1, v, _, _⟩ := hp q hq
      rw [h e he] at h1
      cases h1
  have h2 : (plFinal lines).dram_limit = none := by
    cases hq : (plFinal lines).dram_limit with
    | none => rfl
    | some q =>
      obtain ⟨e, he, h1, v, _, _⟩ := hd q hq
      rw [h e he] at h1
      cases h1
  rw [h1, h2]

theorem twRun_in_package_mono : ∀ (lines : List String) (st : TWState),
    st.in_package = true → (twRun lines st).in_package = true := by
  intro lines
  induction lines with
  | nil => intro st h; exact h
  | cons l rest ih =>
    intro st h
    unfold twRun
    split
    · exact ih _ rfl
    · split
      · exact ih _ h
      · split
        · split <;> exact h
        · exact ih _ h

theorem twRun_abort_result : ∀ (lines : List String) (st : TWState),
    st.aborted = false → (twRun lines st).aborted = true →
    (twRun lines st).result = st.result := by
  intro lines
  induction lines with
  | nil =>
    intro st h hab
    rw [show twRun [] st = st from rfl] at hab
    rw [h] at hab
    cases hab
  | cons l rest ih =>
    intro st h hab
    unfold twRun at hab ⊢
    by_cases h1 : strContains l "name: package-0" = true
    · rw [if_pos h1] at hab ⊢
      exact ih { st with in_package := true } h hab
    · rw [if_neg h1] at hab ⊢
      by_cases h2 : (st.in_package && strContains l "name: long_term") = true
      · rw [if_pos h2] at hab ⊢
        exact ih { st with found_long_term := true } h hab
      · rw [if_neg h2] at hab ⊢
        by_cases h3 : (st.found_long_term && strContains l "time_window_us:") = true
        · rw [if_pos h3] at hab ⊢
          cases hv : pyParseValue l with
          | some v =>
            rw [hv] at hab
            have hba : st.aborted = true := hab
            rw [h] at hba
            cases hba
          | none => rfl
        · rw [if_neg h3] at hab ⊢
          exact ih st h hab

theorem twRun_stop : ∀ (l₁ : List String) (st : TWState) (l₂ : List String),
    st.result = none → st.aborted = false →
    ((twRun l₁ st).result.isSome = true ∨ (twRun l₁ st).aborted = true) →
    twRun (l₁ ++ l₂) st = twRun l₁ st := by
  intro l₁
  induction l₁ with
  | nil =>
    intro st l₂ hr hab hterm
    rw [show twRun [] st = st from rfl] at hterm
    rcases hterm with h | h
    · rw [hr] at h; cases h
    · rw [hab] at h; cases h
  | cons l rest ih =>
    intro st l₂ hr hab hterm
    rw [show (l :: rest) ++ l₂ = l :: (rest ++ l₂) from rfl]
    unfold twRun at hterm ⊢
    by_cases h1 : strContains l "name: package-0" = true
    · simp only [if_pos h1] at hterm ⊢
      exact ih { st with in_package := true } l₂ hr hab hterm
    · simp only [if_neg h1] at hterm ⊢
      by_cases h2 : (st.in_package && strContains l "name: long_term") = true
      · simp only [if_pos h2] at hterm ⊢
        exact ih { st with found_long_term := true } l₂ hr hab hterm
      · simp only [if_neg h2] at hterm ⊢
        by_cases h3 : (st.found_long_term && strContains l "time_window_us:") = true
        · simp only [if_pos h3]
        · simp only [if_neg h3] at hterm ⊢
          exact ih st l₂ hr hab hterm

theorem twRun_cons (l : String) (rest : List String) (st : TWState) :
    twRun (l :: rest) st =
      if strContains l "name: package-0" then twRun rest { st with in_package := true }
      else if st.in_package && strContains l "name: long_term" then
        twRun rest { st with found_long_term := true }
      else if st.found_long_term && strContains l "time_window_us:" then
        match pyParseValue l with
        | some v => { st with result := some v }
        | none => { st with aborted := true }
      else twRun rest st := rfl

theorem firstIdx_cons (p : String → Bool) (l : String) (rest : List String) :
    firstIdx p (l :: rest) = if p l then some 0 else (firstIdx p rest).map (· + 1) := rfl

theorem twRun_phase0 : ∀ lines : List String,
    twRun lines ⟨false, false, none, false⟩ =
      (match firstIdx pkgB lines with
       | none => (⟨false, false, none, false⟩ : TWState)
       | some i0 => twRun (lines.drop (i0 + 1)) ⟨true, false, none, false⟩) := by
  intro lines
  induction lines with
  | nil => rfl
  | cons l rest ih =>
    rw [twRun_cons, firstIdx_cons]
    by_cases h1 : strContains l "name: package-0" = true
    · rw [if_pos h1, if_pos (show pkgB l = true from h1)]
      rfl
    · rw [if_neg h1, if_neg (show ¬pkgB l = true from h1)]
      show twRun rest ⟨false, false, none, false⟩ = _
      rw [ih]
      cases h : firstIdx pkgB rest with
      | none => rfl
      | some i => rfl

theorem twRun_phase1 : ∀ lines : List String,
    twRun lines ⟨true, false, none, false⟩ =
      (match firstIdx armB lines with
       | none => (⟨true, false, none, false⟩ : TWState)
       | some i1 => twRun (lines.drop (i1 + 1)) ⟨true, true, none, false⟩) := by
  intro lines
  induction lines with
  | nil => rfl
  | cons l rest ih =>
    rw [twRun_cons, firstIdx_cons]
    by_cases h1 : strContains l "name: package-0" = true
    · rw [if_pos h1, if_neg (show ¬armB l = true from by simp [armB, pkgB, h1])]
      show twRun rest ⟨true, false, none, false⟩ = _
      rw [ih]
      cases h : firstIdx armB rest with
      | none => rfl
      | some i => rfl
    · rw [if_neg h1]
      by_cases h2 : strContains l "name: long_term" = true
      · rw [if_pos (show ((⟨true, false, none, false⟩ : TWState).in_package &&
            strContains l "name: long_term") = true from by rw [h2]; rfl),
          if_pos (show armB l = true from by simp [armB, ltB, pkgB, h1, h2])]
        rfl
      · rw [if_neg (show ¬((⟨true, false, none, false⟩ : TWState).in_package &&
            strContains l "name: long_term") = true from by
              simp only [Bool.and_eq_true]; intro hc; exact h2 hc.2),
          if_neg (show ¬armB l = true from by simp [armB, ltB, h2])]
        show twRun rest ⟨true, false, none, false⟩ = _
        rw [ih]
        cases h : firstIdx armB rest with
        | none => rfl
        | some i => rfl

theorem twRun_phase2 : ∀ lines : List String,
    twRun lines ⟨true, true, none, false⟩ =
      (match firstIdx fireB lines with
       | none => (⟨true, true, none, false⟩ : TWState)
       | some i2 =>
         match pyParseValue (lines.getD i2 "") with
         | some v => ⟨true, true, some v, false⟩
         | none => ⟨true, true, none, true⟩) := by
  intro lines
  induction lines with
  | nil => rfl
  | cons l rest ih =>
    rw [twRun_cons, firstIdx_cons]
    by_cases h1 : strContains l "name: package-0" = true
    · rw [if_pos h1, if_neg (show ¬fireB l = true from by simp [fireB, pkgB, h1])]
      show twRun rest ⟨true, true, none, false⟩ = _
      rw [ih]
      cases h : firstIdx fireB rest with
      | none => rfl
      | some i => rfl
    · rw [if_neg h1]
      by_cases h2 : strContains l "name: long_term" = true
      · rw [if_pos (show ((⟨true, true, none, false⟩ : TWState).in_package &&
            strContains l "name: long_term") = true from by rw [h2]; rfl),
          if_neg (show ¬fireB l = true from by simp [fireB, ltB, h2])]
        show twRun rest ⟨true, true, none, false⟩ = _
        rw [ih]
        cases h : firstIdx fireB rest with
        | none => rfl
        | some i => rfl
      · rw [if_neg (show ¬((⟨true, true, none, false⟩ : TWState).in_package &&
            strContains l "name: long_term") = true from by
              simp only [Bool.and_eq_true]; intro hc; exact h2 hc.2)]
        by_cases h3 : strContains l "time_window_us:" = true
        · rw [if_pos (show ((⟨true, true, none, false⟩ : TWState).found_long_term &&
              strContains l "time_window_us:") = true from by rw [h3]; rfl),
            if_pos (show fireB l = true from by simp [fireB, twB, ltB, pkgB, h1, h2, h3])]
          dsimp only
          cases hv : pyParseValue l with
          | none =>
            rw [show pyParseValue ((l :: rest).getD 0 "") = none from hv]
          | some v =>
            rw [show pyParseValue ((l :: rest).getD 0 "") = some v from hv]

        · rw [if_neg (show ¬((⟨true, true, none, false⟩ : TWState).found_long_term &&
              strContains l "time_window_us:") = true from by
                simp only [Bool.and_eq_true]; intro hc; exact h3 hc.2),
            if_neg (show ¬fireB l = true from by simp [fireB, twB, h3])]
          show twRun rest ⟨true, true, none, false⟩ = _
          rw [ih]
          cases h : firstIdx fireB rest with
          | none => rfl
          | some i => rfl

theorem twRun_result_eq_specTW (lines : List String) :
    (twRun lines twInit).result = specTW lines := by
  rw [show twInit = (⟨false, false, none, false⟩ : TWState) from rfl, twRun_phase0]
  unfold specTW
  dsimp only
  cases h0 : firstIdx pkgB lines with
  | none => rfl
  | some i0 =>
    dsimp only
    rw [twRun_phase1]
    cases h1 : firstIdx armB (lines.drop (i0 + 1)) with
    | none => rfl
    | some i1 =>
      dsimp only
      rw [twRun_phase2]
      cases h2 : firstIdx fireB ((lines.drop (i0 + 1)).drop (i1 + 1)) with
      | none => rfl
      | some i2 =>
        dsimp only
        cases hv : pyParseValue (((lines.drop (i0 + 1)).drop (i1 + 1)).getD i2 "") with
        | none => rfl
        | some v => rfl

theorem load_timewindow_info_eq_spec (lines : List String) :
    load_timewindow_info lines =
      (match specTW lines with
       | some v => (some v, some ((v : ℚ) / 1000))
       | none => (none, none)) := by
  unfold load_timewindow_info
  rw [twRun_result_eq_specTW]

theorem load_timewindow_info_stop (lines extra : List String) (v : Int) (m : ℚ)
    (h : load_timewindow_info lines = (some v, some m)) :
    load_timewindow_info (lines ++ extra) = (some v, some m) := by
  unfold load_timewindow_info at h ⊢
  cases hr : (twRun lines twInit).result with
  | none => rw [hr] at h; simp at h
  | some w =>
    rw [hr] at h
    have hs : twRun (lines ++ extra) twInit = twRun lines twInit :=
      twRun_stop lines twInit extra rfl rfl (Or.inl (by rw [hr]; rfl))
    rw [hs, hr]
    exact h

theorem processRecords_cons_obj (fs : List (String × Json)) (rest : List Json) (g : GroupState) :
    processRecords (Json.obj fs :: rest) g =
      (match pyGet fs "device_id", pyGet fs "timestamp", pyGet fs "value" with
       | some d, some t, some v =>
         if jsonTruthy d && jsonTruthy t then
           if pyHashable d then processRecords rest (addToGroup g d ⟨t, v⟩)
           else Except.error PyErr.typeError
         else processRecords rest g
       | _, _, _ => processRecords rest g) := rfl

theorem specGroup_cons (g : GroupState) (j : Json) (rest : List Json) :
    specGroup g (j :: rest) =
      if validRecordB j then specGroup (addToGroup g (didD j) (grecD j)) rest
      else specGroup g rest := rfl

theorem processRecords_spec : ∀ (xs : List Json) (g : GroupState),
    xs.all isObjB = true → xs.all hashIdB = true →
    processRecords xs g = Except.ok (specGroup g xs) := by
  intro xs
  induction xs with
  | nil => intro g _ _; rfl
  | cons j rest ih =>
    intro g h1 h2
    rw [List.all_cons, Bool.and_eq_true] at h1 h2
    obtain ⟨h1j, h1r⟩ := h1
    obtain ⟨h2j, h2r⟩ := h2
    cases j with
    | null => simp [isObjB] at h1j
    | bool b => simp [isObjB] at h1j
    | num q => simp [isObjB] at h1j
    | str s => simp [isObjB] at h1j
    | arr xs => simp [isObjB] at h1j
    | obj fs =>
      rw [processRecords_cons_obj, specGroup_cons]
      cases hd : pyGet fs "device_id" with
      | none =>
        rw [show validRecordB (Json.obj fs) = false from by
          unfold validRecordB; dsimp only; rw [hd]; rfl]
        dsimp only
        exact ih g h1r h2r
      | some d =>
        cases ht : pyGet fs "timestamp" with
        | none =>
          rw [show validRecordB (Json.obj fs) = false from by
            unfold validRecordB; dsimp only; rw [hd, ht]; simp [pyTruthyO]]
          dsimp only
          exact ih g h1r h2r
        | some t =>
          cases hv : pyGet fs "value" with
          | none =>
            rw [show validRecordB (Json.obj fs) = false from by
              unfold validRecordB; dsimp only; rw [hd, ht, hv]; simp [pyTruthyO]]
            dsimp only
            exact ih g h1r h2r
          | some v =>
            dsimp only
            by_cases htr : (jsonTruthy d && jsonTruthy t) = true
            · have hval : validRecordB (Json.obj fs) = true := by
                unfold validRecordB
                dsimp only
                rw [hd, ht, hv]
                rw [Bool.and_eq_true] at htr
                simp [pyTruthyO, htr.1, htr.2]
              have hdid : didD (Json.obj fs) = d := by unfold didD; dsimp only; rw [hd]; rfl
              have hgrec : grecD (Json.obj fs) = ⟨t, v⟩ := by unfold grecD; dsimp only; rw [ht, hv]; rfl
              have hhash : pyHashable d = true := by
                unfold hashIdB at h2j
                rw [hval, hdid] at h2j
                simpa using h2j
              rw [if_pos htr, if_pos hhash, if_pos hval, hdid, hgrec]
              exact ih _ h1r h2r
            · have hval : validRecordB (Json.obj fs) = false := by
                unfold validRecordB
                dsimp only
                rw [hd, ht, hv]
                rw [Bool.not_eq_true] at htr
                simp only [pyTruthyO, Option.isSome_some, Bool.and_true]
                exact htr
              rw [if_neg htr, if_neg (by rw [hval]; simp : ¬validRecordB (Json.obj fs) = true)]
              exact ih g h1r h2r

theorem specGroup_filter : ∀ (xs : List Json) (g : GroupState),
    specGroup g (xs.filter validRecordB) = specGroup g xs := by
  intro xs
  induction xs with
  | nil => intro g; rfl
  | cons j rest ih =>
    intro g
    rw [List.filter_cons]
    by_cases hv : validRecordB j = true
    · rw [if_pos hv, specGroup_cons, specGroup_cons, if_pos hv, if_pos hv]
      exact ih _
    · rw [if_neg hv, specGroup_cons, if_neg hv]
      exact ih g

theorem extract_arr (xs : List Json) :
    extract_and_group_data (Json.arr xs) = processRecords xs [] := rfl

theorem totalLen_addToGroup : ∀ (g : GroupState) (k : Json) (r : GRec),
    totalLen (addToGroup g k r) = totalLen g + 1 := by
  intro g
  induction g with
  | nil => intro k r; rfl
  | cons p rest ih =>
    intro k r
    obtain ⟨k', rs⟩ := p
    unfold addToGroup
    by_cases hk : scalarEq k' k = true
    · rw [if_pos hk]
      unfold totalLen
      simp
      omega
    · rw [if_neg hk]
      unfold totalLen at ih ⊢
      simp only [List.map_cons, List.sum_cons]
      rw [ih k r]
      omega

theorem totalLen_specGroup : ∀ (xs : List Json) (g : GroupState),
    totalLen (specGroup g xs) = totalLen g + (xs.filter validRecordB).length := by
  intro xs
  induction xs with
  | nil => intro g; simp [specGroup]
  | cons j rest ih =>
    intro g
    rw [specGroup_cons, List.filter_cons]
    by_cases hv : validRecordB j = true
    · rw [if_pos hv, if_pos hv, ih, totalLen_addToGroup]
      simp
      omega
    · rw [if_neg hv, if_neg hv, ih]

theorem processRecords_err_iff : ∀ (xs : List Json) (g : GroupState),
    (∃ e, processRecords xs g = Except.error e) ↔ ∃ j ∈ xs, elemErrB j = true := by
  intro xs
  induction xs with
  | nil =>
    intro g
    constructor
    · rintro ⟨e, he⟩; cases he
    · rintro ⟨j, hj, _⟩; cases hj
  | cons j rest ih =>
    intro g
    cases j with
    | obj fs =>
      have hobj : elemErrB (Json.obj fs) = (validRecordB (Json.obj fs) &&
          !pyHashable (didD (Json.obj fs))) := by
        unfold elemErrB hashIdB isObjB
        cases validRecordB (Json.obj fs) <;> cases pyHashable (didD (Json.obj fs)) <;> rfl
      rw [processRecords_cons_obj]
      cases hd : pyGet fs "device_id" with
      | none =>
        have hv0 : validRecordB (Json.obj fs) = false := by
          unfold validRecordB; dsimp only; rw [hd]; rfl
        dsimp only
        rw [ih g]
        constructor
        · rintro ⟨j, hj, he⟩; exact ⟨j, List.mem_cons_of_mem _ hj, he⟩
        · rintro ⟨j, hj, he⟩
          rcases List.mem_cons.mp hj with rfl | hj
          · rw [hobj, hv0] at he; cases he
          · exact ⟨j, hj, he⟩
      | some d =>
        cases ht : pyGet fs "timestamp" with
        | none =>
          have hv0 : validRecordB (Json.obj fs) = false := by
            unfold validRecordB; dsimp only; rw [hd, ht]; simp [pyTruthyO]
          dsimp only
          rw [ih g]
          constructor
          · rintro ⟨j, hj, he⟩; exact ⟨j, List.mem_cons_of_mem _ hj, he⟩
          · rintro ⟨j, hj, he⟩
            rcases List.mem_cons.mp hj with rfl | hj
            · rw [hobj, hv0] at he; cases he
            · exact ⟨j, hj, he⟩
        | some t =>
          cases hv : pyGet fs "value" with
          | none =>
            have hv0 : validRecordB (Json.obj fs) = false := by
              unfold validRecordB; dsimp only; rw [hd, ht, hv]; simp [pyTruthyO]
            dsimp only
            rw [ih g]
            constructor
            · rintro ⟨j, hj, he⟩; exact ⟨j, List.mem_cons_of_mem _ hj, he⟩
            · rintro ⟨j, hj, he⟩
              rcases List.mem_cons.mp hj with rfl | hj
              · rw [hobj, hv0] at he; cases he
              · exact ⟨j, hj, he⟩
          | some v =>
            dsimp only
            by_cases htr : (jsonTruthy d && jsonTruthy t) = true
            · have hval : validRecordB (Json.obj fs) = true := by
                unfold validRecordB
                dsimp only
                rw [hd, ht, hv]
                rw [Bool.and_eq_true] at htr
                simp [pyTruthyO, htr.1, htr.2]
              have hdid : didD (Json.obj fs) = d := by unfold didD; dsimp only; rw [hd]; rfl
              rw [if_pos htr]
              by_cases hh : pyHashable d = true
              · rw [if_pos hh, ih]
                constructor
                · rintro ⟨j, hj, he⟩; exact ⟨j, List.mem_cons_of_mem _ hj, he⟩
                · rintro ⟨j, hj, he⟩
                  rcases List.mem_cons.mp hj with rfl | hj
                  · rw [hobj, hval, hdid, hh] at he; cases he
                  · exact ⟨j, hj, he⟩
              · rw [if_neg hh]
                constructor
                · intro _
                  refine ⟨Json.obj fs, List.mem_cons_self _ _, ?_⟩
                  rw [hobj, hval, hdid]
                  simp only [Bool.not_eq_true] at hh
                  rw [hh]
                  rfl
                · intro _
                  exact ⟨PyErr.typeError, rfl⟩
            · have hval : validRecordB (Json.obj fs) = false := by
                unfold validRecordB
                dsimp only
                rw [hd, ht, hv]
                rw [Bool.not_eq_true] at htr
                simp only [pyTruthyO, Option.isSome_some, Bool.and_true]
                exact htr
              rw [if_neg htr, ih g]
              constructor
              · rintro ⟨j, hj, he⟩; exact ⟨j, List.mem_cons_of_mem _ hj, he⟩
              · rintro ⟨j, hj, he⟩
                rcases List.mem_cons.mp hj with rfl | hj
                · rw [hobj, hval] at he; cases he
                · exact ⟨j, hj, he⟩
    | null =>
      constructor
      · intro _; exact ⟨Json.null, List.mem_cons_self _ _, rfl⟩
      · intro _; exact ⟨PyErr.attributeError, rfl⟩
    | bool b =>
      constructor
      · intro _; exact ⟨Json.bool b, List.mem_cons_self _ _, rfl⟩
      · intro _; exact ⟨PyErr.attributeError, rfl⟩
    | num q =>
      constructor
      · intro _; exact ⟨Json.num q, List.mem_cons_self _ _, rfl⟩
      · intro _; exact ⟨PyErr.attributeError, rfl⟩
    | str s =>
      constructor
      · intro _; exact ⟨Json.str s, List.mem_cons_self _ _, rfl⟩
      · intro _; exact ⟨PyErr.attributeError, rfl⟩
    | arr ys =>
      constructor
      · intro _; exact ⟨Json.arr ys, List.mem_cons_self _ _, rfl⟩
      · intro _; exact ⟨PyErr.attributeError, rfl⟩

theorem pyGet_typed (fs : List (String × Json)) (k : String)
    (h : strOrNullFieldB fs k = true) :
    pyGet fs k = none ∨ ∃ s, pyGet fs k = some (Json.str s) := by
  unfold strOrNullFieldB at h
  unfold pyGet
  cases hq : objGet fs k with
  | none => exact Or.inl rfl
  | some j =>
    rw [hq] at h
    cases j with
    | null => exact Or.inl rfl
    | str s => exact Or.inr ⟨s, rfl⟩
    | bool b => simp at h
    | num q => simp at h
    | arr a => simp at h
    | obj o => simp at h

theorem validRecordB_typed (fs : List (String × Json)) (h : typedRecB (Json.obj fs) = true) :
    validRecordB (Json.obj fs) =
      (nonEmptyStrFieldB fs "device_id" && nonEmptyStrFieldB fs "timestamp" &&
        (pyGet fs "value").isSome) := by
  unfold typedRecB at h
  dsimp only at h
  rw [Bool.and_eq_true] at h
  have hd := pyGet_typed fs "device_id" h.1
  have ht := pyGet_typed fs "timestamp" h.2
  unfold validRecordB nonEmptyStrFieldB
  dsimp only
  rcases hd with hd | ⟨s, hd⟩ <;> rcases ht with ht | ⟨t, ht⟩ <;> rw [hd, ht] <;>
    simp [pyTruthyO, jsonTruthy]

theorem typedRec_hashId (j : Json) (h : typedRecB j = true) : hashIdB j = true := by
  cases j with
  | obj fs =>
    unfold typedRecB at h
    dsimp only at h
    rw [Bool.and_eq_true] at h
    have hd := pyGet_typed fs "device_id" h.1
    unfold hashIdB
    rcases hd with hd | ⟨s, hd⟩
    · have hn : didD (Json.obj fs) = Json.null := by unfold didD; dsimp only; rw [hd]; rfl
      rw [hn]
      simp [pyHashable]
    · have hn : didD (Json.obj fs) = Json.str s := by unfold didD; dsimp only; rw [hd]; rfl
      rw [hn]
      simp [pyHashable]
  | null => simp [typedRecB] at h
  | bool b => simp [typedRecB] at h
  | num q => simp [typedRecB] at h
  | str s => simp [typedRecB] at h
  | arr a => simp [typedRecB] at h

instance : IsTotal GRec tsle :=
  ⟨fun a b => le_total (tsKey a.timestamp) (tsKey b.timestamp)⟩

instance : IsTrans GRec tsle :=
  ⟨fun _ _ _ hab hbc => le_trans hab hbc⟩

theorem sortSeries_sorted (rs : List GRec) : (sortSeries rs).Sorted tsle :=
  List.sorted_insertionSort tsle rs

theorem sortSeries_idem (rs : List GRec) : sortSeries (sortSeries rs) = sortSeries rs :=
  List.Sorted.insertionSort_eq (sortSeries_sorted rs)

theorem tsIsB_tsKey {t : String} {r : GRec} (h : tsIsB t r = true) : tsKey r.timestamp = t := by
  obtain ⟨ts, pw⟩ := r
  cases ts with
  | str s => exact eq_of_beq h
  | null => exact Bool.noConfusion h
  | bool b => exact Bool.noConfusion h
  | num q => exact Bool.noConfusion h
  | arr a => exact Bool.noConfusion h
  | obj o => exact Bool.noConfusion h

theorem filter_orderedInsert_pos (t : String) (a : GRec) (ha : tsIsB t a = true) :
    ∀ s : List GRec, (List.orderedInsert tsle a s).filter (tsIsB t) =
      a :: s.filter (tsIsB t) := by
  intro s
  induction s with
  | nil => simp [List.orderedInsert, List.filter_cons, ha]
  | cons b l ih =>
    unfold List.orderedInsert
    by_cases hle : tsle a b
    · rw [if_pos hle, List.filter_cons, if_pos ha]
    · rw [if_neg hle, List.filter_cons]
      have hb : tsIsB t b = false := by
        cases hbt : tsIsB t b
        · rfl
        · exfalso
          apply hle
          unfold tsle
          rw [tsIsB_tsKey ha, tsIsB_tsKey hbt]
      rw [if_neg (by rw [hb]; simp), ih, List.filter_cons, if_neg (by rw [hb]; simp)]

theorem filter_orderedInsert_neg (t : String) (a : GRec) (ha : tsIsB t a = false) :
    ∀ s : List GRec, (List.orderedInsert tsle a s).filter (tsIsB t) =
      s.filter (tsIsB t) := by
  intro s
  induction s with
  | nil => simp [List.orderedInsert, List.filter_cons, ha]
  | cons b l ih =>
    unfold List.orderedInsert
    by_cases hle : tsle a b
    · rw [if_pos hle, List.filter_cons, if_neg (by rw [ha]; simp)]
    · rw [if_neg hle, List.filter_cons, ih, List.filter_cons]

theorem sortSeries_stable (rs : List GRec) (t : String) :
    (sortSeries rs).filter (tsIsB t) = rs.filter (tsIsB t) := by
  induction rs with
  | nil => rfl
  | cons a l ih =>
    have hs : sortSeries (a :: l) = List.orderedInsert tsle a (sortSeries l) := rfl
    rw [hs]
    by_cases ha : tsIsB t a = true
    · rw [filter_orderedInsert_pos t a ha, ih, List.filter_cons, if_pos ha]
    · rw [filter_orderedInsert_neg t a (by rw [Bool.not_eq_true] at ha; exact ha), ih,
        List.filter_cons, if_neg ha]

theorem lcProcess_spec : ∀ xs : List Json, xs.all lcOkB = true →
    lcProcess xs = Except.ok (xs.filterMap lcTs, xs.filterMap lcVal) := by
  intro xs
  induction xs with
  | nil => intro _; rfl
  | cons j rest ih =>
    intro h
    rw [List.all_cons, Bool.and_eq_true] at h
    obtain ⟨hj, hr⟩ := h
    cases j with
    | null => simp [lcOkB] at hj
    | bool b => simp [lcOkB] at hj
    | num q => simp [lcOkB] at hj
    | arr a => simp [lcOkB] at hj
    | str s => simp [lcOkB] at hj
    | obj fs =>
      unfold lcOkB at hj
      dsimp only at hj
      show lcProcess (Json.obj fs :: rest) = _
      rw [show lcProcess (Json.obj fs :: rest) =
        (match objGet fs "device_id" with
         | none => Except.error PyErr.keyError
         | some d =>
           if pyEqStr d "chirop-5" then
             match objGet fs "timestamp" with
             | none => Except.error PyErr.keyError
             | some (Json.str ts) =>
               match objGet fs "value" with
               | none => Except.error PyErr.keyError
               | some v =>
                 match pyAbs v with
                 | none => Except.error PyErr.typeError
                 | some a => (lcProcess rest).map (fun p => (ts :: p.1, a :: p.2))
             | some _ => Except.error PyErr.typeError
           else lcProcess rest) from rfl]
      cases hd : objGet fs "device_id" with
      | none => rw [hd] at hj; simp at hj
      | some d =>
        rw [hd] at hj
        dsimp only at hj ⊢
        by_cases hc : pyEqStr d "chirop-5" = true
        · rw [if_pos hc]
          rw [hc] at hj
          simp only [Bool.not_true, Bool.false_or, Bool.and_eq_true] at hj
          obtain ⟨hjt, hjv⟩ := hj
          have hc5 : isChirop5B (Json.obj fs) = true := by
            unfold isChirop5B
            dsimp only
            rw [hd]
            exact hc
          cases htq : objGet fs "timestamp" with
          | none => rw [htq] at hjt; simp at hjt
          | some tj =>
            rw [htq] at hjt
            cases tj with
            | str ts =>
              dsimp only
              cases hvq : objGet fs "value" with
              | none => rw [hvq] at hjv; simp at hjv
              | some v =>
                rw [hvq] at hjv
                dsimp only
                cases hva : pyAbs v with
                | none => dsimp only at hjv; rw [hva] at hjv; simp at hjv
                | some a =>
                  rw [ih hr]
                  have hts : lcTs (Json.obj fs) = some ts := by
                    unfold lcTs
                    dsimp only
                    rw [if_pos hc5, htq]
                  have hvl : lcVal (Json.obj fs) = some a := by
                    unfold lcVal
                    dsimp only
                    rw [if_pos hc5, hvq]
                    exact hva
                  rw [List.filterMap_cons, List.filterMap_cons, hts, hvl]
                  rfl
            | null => simp at hjt
            | bool b => simp at hjt
            | num q => simp at hjt
            | arr ar => simp at hjt
            | obj ob => simp at hjt
        · rw [if_neg hc]
          have hc5 : isChirop5B (Json.obj fs) = false := by
            unfold isChirop5B
            dsimp only
            rw [hd]
            rw [Bool.not_eq_true] at hc
            exact hc
          have hts : lcTs (Json.obj fs) = none := by
            unfold lcTs
            dsimp only
            rw [hc5]
            simp
          have hvl : lcVal (Json.obj fs) = none := by
            unfold lcVal
            dsimp only
            rw [hc5]
            simp
          rw [ih hr, List.filterMap_cons, List.filterMap_cons, hts, hvl]

theorem all_filter_of_all {p q : Json → Bool} {xs : List Json} (h : xs.all q = true) :
    (xs.filter p).all q = true := by
  rw [List.all_eq_true] at h ⊢
  intro j hj
  exact h j (List.mem_of_mem_filter hj)

/-- Claim C1, counterexample: the claim asserts that in the grouping step a
record lacking a required field is dropped and "no exception is raised for
such a record"; but the grouping loop of `json_to_csv`
(src/chirop/json_to_csv.py lines 29-32) raises `KeyError` on a record (here
the empty object) lacking `device_id`, aborting the run. -/
theorem C1_counterexample :
    json_to_csv_grouping (Json.arr [Json.obj []]) = Except.error PyErr.keyError := rfl

/-- Claim C1 (amended): in `extract_and_group_data` (src/extract_metrics_to_csv.py),
over an array of dict records whose included device ids are hashable, every
record lacking any of the three required fields is dropped — the result equals
that of the same input with the invalid records removed — and the run returns
normally with no exception; `json_to_csv`'s grouping, by contrast, raises
`KeyError` on a record lacking `device_id` (see the counterexample). -/
theorem C1_amended (xs : List Json) (h1 : xs.all isObjB = true)
    (h2 : xs.all hashIdB = true) :
    extract_and_group_data (Json.arr xs) =
      extract_and_group_data (Json.arr (xs.filter validRecordB)) ∧
    ∃ g, extract_and_group_data (Json.arr xs) = Except.ok g := by
  have hmain := processRecords_spec xs [] h1 h2
  have hf1 : (xs.filter validRecordB).all isObjB = true := all_filter_of_all h1
  have hf2 : (xs.filter validRecordB).all hashIdB = true := all_filter_of_all h2
  have hmainf := processRecords_spec (xs.filter validRecordB) [] hf1 hf2
  constructor
  · rw [extract_arr, extract_arr, hmain, hmainf, specGroup_filter]
  · exact ⟨specGroup [] xs, by rw [extract_arr, hmain]⟩

/-- Witness for C1 (amended) at a concrete input: one complete record and one
record lacking `device_id`; the hypotheses hold and the amended claim applies. -/
theorem C1_amended_witness :
    ([Json.obj [("device_id", Json.str "d"), ("timestamp", Json.str "t"),
        ("value", Json.num 1)],
      Json.obj [("timestamp", Json.str "u"), ("value", Json.num 2)]].all isObjB = true) ∧
    ([Json.obj [("device_id", Json.str "d"), ("timestamp", Json.str "t"),
        ("value", Json.num 1)],
      Json.obj [("timestamp", Json.str "u"), ("value", Json.num 2)]].all hashIdB = true) ∧
    (extract_and_group_data (Json.arr
        [Json.obj [("device_id", Json.str "d"), ("timestamp", Json.str "t"),
          ("value", Json.num 1)],
         Json.obj [("timestamp", Json.str "u"), ("value", Json.num 2)]]) =
      extract_and_group_data (Json.arr
        ([Json.obj [("device_id", Json.str "d"), ("timestamp", Json.str "t"),
           ("value", Json.num 1)],
          Json.obj [("timestamp", Json.str "u"), ("value", Json.num 2)]].filter
            validRecordB)) ∧
     ∃ g, extract_and_group_data (Json.arr
        [Json.obj [("device_id", Json.str "d"), ("timestamp", Json.str "t"),
          ("value", Json.num 1)],
         Json.obj [("timestamp", Json.str "u"), ("value", Json.num 2)]]) = Except.ok g) :=
  ⟨by decide, by decide, C1_amended _ (by decide) (by decide)⟩

/-- Claim C2, counterexample: the claim says a power-limit value is recognized
ONLY on a line whose immediately preceding line contains `long_term`. Here the
only line containing `power_limit_uw:` is the FIRST line, which has no
preceding line at all; yet because Python's `lines[i-1]` wraps to the LAST
line at `i = 0`, and that last line contains `long_term`, a DRAM limit is
extracted from it. -/
theorem C2_counterexample :
    load_config_info ["a:7:name: dram:power_limit_uw:", "long_term"] =
      (none, some ((7 : ℚ) / 1000000)) ∧
    strContains (["a:7:name: dram:power_limit_uw:", "long_term"].getD 1 "")
      "power_limit_uw:" = false :=
  ⟨rfl, by decide⟩

/-- Claim C2 (amended): `load_config_info` recognizes a power-limit value only
on a line containing `power_limit_uw:` whose Python-indexed previous line
`lines[i-1]` contains `long_term` — for `i = 0` that is the LAST line of the
file, not a (nonexistent) preceding line; the stored value is the parsed raw
microwatt integer divided by 1,000,000; and on the spec's example input it
returns `package_limit = 15.0` with the DRAM limit absent. -/
theorem C2_amended :
    load_config_info ["name: package-0", "  name: long_term", "  power_limit_uw: 15000000"] =
      (some 15, none) ∧
    (∀ (lines : List String) (e : PLEvent), e ∈ plEvents lines →
      strContains (lines.getD e.idx "") "power_limit_uw:" = true ∧
      strContains (pyPrev lines e.idx) "long_term" = true) ∧
    (∀ (lines : List String) (q : ℚ), (load_config_info lines).1 = some q →
      ∃ e ∈ plEvents lines, e.target = some Zone.package ∧
        ∃ v : Int, e.parsed = some v ∧ q = (v : ℚ) / 1000000) ∧
    (∀ (lines : List String) (q : ℚ), (load_config_info lines).2 = some q →
      ∃ e ∈ plEvents lines, e.target = some Zone.dram ∧
        ∃ v : Int, e.parsed = some v ∧ q = (v : ℚ) / 1000000) := by
  refine ⟨?_, ?_, ?_, ?_⟩
  · have h : load_config_info
        ["name: package-0", "  name: long_term", "  power_limit_uw: 15000000"] =
        (some (((15000000 : Int) : ℚ) / 1000000), none) := rfl
    rw [h]
    norm_num
  · intro lines e he
    exact plEvents_ok lines e he
  · intro lines q hq
    exact (plFinal_origin lines).1 q hq
  · intro lines q hq
    exact (plFinal_origin lines).2 q hq

/-- Witness for C2 (amended): on the example input the single extraction event
sits at index 2, its line contains the marker, and its previous line contains
`long_term`. -/
theorem C2_amended_witness :
    strContains ((["name: package-0", "  name: long_term",
      "  power_limit_uw: 15000000"] : List String).getD 2 "") "power_limit_uw:" = true ∧
    strContains (pyPrev ["name: package-0", "  name: long_term",
      "  power_limit_uw: 15000000"] 2) "long_term" = true :=
  C2_amended.2.1 ["name: package-0", "  name: long_term", "  power_limit_uw: 15000000"]
    ⟨2, some 15000000, some Zone.package⟩ (by decide)

/-- Claim C3: `load_timewindow_info` behaves as the specified state machine.
The scan equals a declarative three-phase search: the first `name: package-0`
line enters the package zone, after it the first arming `name: long_term` line
sets the flag, after that the first firing `time_window_us:` line is parsed as
integer microseconds (milliseconds are microseconds / 1000) and the scan stops
immediately — appending lines after a successful scan cannot change the
result; on the spec's example it returns 8000 µs and 8.0 ms. -/
theorem C3_state_machine :
    (∀ lines : List String, load_timewindow_info lines =
      (match specTW lines with
       | some v => (some v, some ((v : ℚ) / 1000))
       | none => (none, none))) ∧
    load_timewindow_info ["name: package-0", "name: long_term", "time_window_us: 8000"] =
      (some 8000, some 8) ∧
    (∀ (lines extra : List String) (v : Int) (m : ℚ),
      load_timewindow_info lines = (some v, some m) →
      load_timewindow_info (lines ++ extra) = (some v, some m)) := by
  refine ⟨load_timewindow_info_eq_spec, ?_, load_timewindow_info_stop⟩
  have h : load_timewindow_info ["name: package-0", "name: long_term", "time_window_us: 8000"] =
      (some 8000, some (((8000 : Int) : ℚ) / 1000)) := rfl
  rw [h]
  norm_num

/-- Witness for C3: the stop-immediately clause applied to the example input
extended by a further `time_window_us:` line, which is ignored. -/
theorem C3_state_machine_witness :
    load_timewindow_info (["name: package-0", "name: long_term", "time_window_us: 8000"] ++
      ["time_window_us: 9000"]) = (some 8000, some 8) :=
  C3_state_machine.2.2 ["name: package-0", "name: long_term", "time_window_us: 8000"]
    ["time_window_us: 9000"] 8000 8 C3_state_machine.2.1

/-- Claim C7, counterexample: the claim says every `power_limit_uw:` occurrence
not immediately preceded by a `long_term` line is ignored. The only occurrence
here is on the first line, which has no preceding line, yet a package limit is
extracted from it because Python's `lines[i-1]` selects the last line at
`i = 0` and that line contains `long_term`. -/
theorem C7_counterexample :
    load_config_info ["b:9:name: package-:power_limit_uw:", "x long_term x"] =
      (some ((9 : ℚ) / 1000000), none) ∧
    strContains (["b:9:name: package-:power_limit_uw:", "x long_term x"].getD 1 "")
      "power_limit_uw:" = false :=
  ⟨rfl, by decide⟩

/-- Claim C7 (amended): an occurrence of `power_limit_uw:` at index `i ≥ 1` is
ignored unless line `i-1` contains `long_term`; an occurrence at index 0 is
ignored unless the LAST line of the file contains `long_term` (Python's
negative-index lookback), equivalently: every extraction event is preceded, in
that wrapped sense, by a `long_term` line. -/
theorem C7_amended (lines : List String) (e : PLEvent) (he : e ∈ plEvents lines) :
    (e.idx = 0 → strContains (lines.getLastD "") "long_term" = true) ∧
    (e.idx ≠ 0 → strContains (lines.getD (e.idx - 1) "") "long_term" = true) := by
  have h := (plEvents_ok lines e he).2
  unfold pyPrev at h
  constructor
  · intro h0
    rw [if_pos h0] at h
    exact h
  · intro h0
    rw [if_neg h0] at h
    exact h

/-- Witness for C7 (amended): a DRAM extraction event at index 2 whose
previous line contains `long_term`. -/
theorem C7_amended_witness :
    ((2 : Nat) = 0 → strContains ((["name: dram", "name: long_term",
      "power_limit_uw: 2000000"] : List String).getLastD "") "long_term" = true) ∧
    ((2 : Nat) ≠ 0 → strContains ((["name: dram", "name: long_term",
      "power_limit_uw: 2000000"] : List String).getD (2 - 1) "") "long_term" = true) :=
  C7_amended ["name: dram", "name: long_term", "power_limit_uw: 2000000"]
    ⟨2, some 2000000, some Zone.dram⟩ (by decide)

/-- Claim C10: the in-package-zone state of `load_timewindow_info`'s scan is
monotone — no line (such as a later `name: dram` zone header) ever clears it —
and concretely, a `name: long_term` line appearing after an intervening
`name: dram` header still arms the flag, so the following `time_window_us:`
line is still extracted. -/
theorem C10_monotone_zone :
    (∀ (lines : List String) (st : TWState), st.in_package = true →
      (twRun lines st).in_package = true) ∧
    load_timewindow_info ["name: package-0", "name: dram", "name: long_term",
      "time_window_us: 4000"] = (some 4000, some 4) := by
  refine ⟨twRun_in_package_mono, ?_⟩
  have h : load_timewindow_info ["name: package-0", "name: dram", "name: long_term",
      "time_window_us: 4000"] = (some 4000, some (((4000 : Int) : ℚ) / 1000)) := rfl
  rw [h]
  norm_num

/-- Witness for C10: monotonicity applied to a concrete state and a concrete
`name: dram` line. -/
theorem C10_monotone_zone_witness :
    (twRun ["name: dram"] ⟨true, false, none, false⟩).in_package = true :=
  C10_monotone_zone.1 ["name: dram"] ⟨true, false, none, false⟩ rfl

/-- Claim C4, counterexample: the claim requires the grouping step to fail
whenever the top-level parsed input is not a sequence of record-like
structures, e.g. "an object instead of an array"; but on a top-level (empty)
JSON object `extract_and_group_data` iterates the dict's keys, finds none, and
returns an empty grouping instead of failing. -/
theorem C4_counterexample :
    extract_and_group_data (Json.obj []) = Except.ok [] := rfl

/-- Claim C4 (amended): `extract_and_group_data` raises (an uncaught builtin
`TypeError`/`AttributeError`, not a dedicated `MalformedInputError`) exactly
when the top-level input is not iterable (a number, boolean or null), or its
Python iteration (array elements; dict keys; string characters) yields an
offending element — a non-dict, or a validated record whose `device_id` is
unhashable. When it raises, no grouping is produced at all; a top-level empty
object or empty string yields an empty grouping, and an array containing a
non-dict element is fatal rather than skipped. -/
theorem C4_amended (data : Json) :
    (∃ e, extract_and_group_data data = Except.error e) ↔
      (pyIterList data = Except.error PyErr.typeError ∨
       ∃ xs, pyIterList data = Except.ok xs ∧ ∃ j ∈ xs, elemErrB j = true) := by
  cases data with
  | null =>
    constructor
    · intro _; exact Or.inl rfl
    · intro _; exact ⟨PyErr.typeError, rfl⟩
  | bool b =>
    constructor
    · intro _; exact Or.inl rfl
    · intro _; exact ⟨PyErr.typeError, rfl⟩
  | num q =>
    constructor
    · intro _; exact Or.inl rfl
    · intro _; exact ⟨PyErr.typeError, rfl⟩
  | arr xs =>
    rw [show extract_and_group_data (Json.arr xs) = processRecords xs [] from rfl,
      processRecords_err_iff]
    constructor
    · intro h; exact Or.inr ⟨xs, rfl, h⟩
    · rintro (h | ⟨xs', hxs, h⟩)
      · simp [pyIterList] at h
      · have hx : xs = xs' := by simpa [pyIterList] using hxs
        rw [hx]
        exact h
  | obj fs =>
    rw [show extract_and_group_data (Json.obj fs) =
      processRecords (fs.map (fun p => Json.str p.1)) [] from rfl, processRecords_err_iff]
    constructor
    · intro h
      refine Or.inr ⟨fs.map (fun p => Json.str p.1), ?_, h⟩
      rfl
    · rintro (h | ⟨xs', hxs, h⟩)
      · simp [pyIterList] at h
      · have hx : fs.map (fun p => Json.str p.1) = xs' := by
          simpa [pyIterList] using hxs
        rw [hx]
        exact h
  | str s =>
    rw [show extract_and_group_data (Json.str s) =
      processRecords (s.data.map (fun c => Json.str (String.mk [c]))) [] from rfl,
      processRecords_err_iff]
    constructor
    · intro h
      refine Or.inr ⟨s.data.map (fun c => Json.str (String.mk [c])), ?_, h⟩
      rfl
    · rintro (h | ⟨xs', hxs, h⟩)
      · simp [pyIterList] at h
      · have hx : s.data.map (fun c => Json.str (String.mk [c])) = xs' := by
          simpa [pyIterList] using hxs
        rw [hx]
        exact h

/-- Claim C5, counterexample: the claim says any parsing exception yields ALL
result fields absent. Here a valid package extraction happens first, then a
malformed `power_limit_uw: xyz` raises `ValueError`; the function returns
normally with the already-extracted package limit of 15 W RETAINED, not
absent. -/
theorem C5_counterexample :
    load_config_info ["name: package-0", "name: long_term", "power_limit_uw: 15000000",
      "name: dram", "name: long_term", "power_limit_uw: xyz"] = (some 15, none) ∧
    (plFinal ["name: package-0", "name: long_term", "power_limit_uw: 15000000",
      "name: dram", "name: long_term", "power_limit_uw: xyz"]).aborted = true := by
  constructor
  · have h : load_config_info ["name: package-0", "name: long_term",
        "power_limit_uw: 15000000", "name: dram", "name: long_term",
        "power_limit_uw: xyz"] = (some (((15000000 : Int) : ℚ) / 1000000), none) := rfl
    rw [h]
    norm_num
  · decide

/-- Claim C5 (amended): no parsing exception ever propagates from either
config parser. A missing file yields all fields absent for both parsers; an
exception in `load_timewindow_info` always yields both fields absent; an
exception in `load_config_info` stops the scan — the remaining lines are
ignored and the function returns normally — but fields extracted BEFORE the
exception are retained; only when no value was stored does it return all
fields absent. -/
theorem C5_amended :
    (load_config_info_file none = (none, none) ∧
     load_timewindow_info_file none = (none, none)) ∧
    (∀ lines : List String, (twRun lines twInit).aborted = true →
      load_timewindow_info lines = (none, none)) ∧
    (∀ (lines rem₁ rem₂ : List String) (i : Nat) (st : PLState),
      (plRunFrom lines i rem₁ st).aborted = true →
      plRunFrom lines i (rem₁ ++ rem₂) st = plRunFrom lines i rem₁ st) ∧
    (∀ lines : List String, (∀ e ∈ plEvents lines, e.target = none) →
      load_config_info lines = (none, none)) := by
  refine ⟨⟨rfl, rfl⟩, ?_, ?_, load_config_info_none_of_no_store⟩
  · intro lines hab
    unfold load_timewindow_info
    rw [twRun_abort_result lines twInit rfl hab]
    rfl
  · intro lines rem₁ rem₂ i st h
    exact plRunFrom_append_of_abort lines rem₁ i st rem₂ h

/-- Witness for C5 (amended): a time-window parse exception yields all-absent
fields; a power scan that aborts inside a prefix ignores appended lines; a
scan whose only event stored nothing yields all-absent fields. -/
theorem C5_amended_witness :
    load_timewindow_info ["name: package-0", "name: long_term", "time_window_us: zz"] =
      (none, none) ∧
    plRunFrom ["power_limit_uw: x", "long_term"] 0
        (["power_limit_uw: x"] ++ ["long_term"]) plInit =
      plRunFrom ["power_limit_uw: x", "long_term"] 0 ["power_limit_uw: x"] plInit ∧
    load_config_info ["power_limit_uw: 1"] = (none, none) :=
  ⟨C5_amended.2.1 _ (by decide),
   C5_amended.2.2.1 ["power_limit_uw: x", "long_term"] ["power_limit_uw: x"] ["long_term"]
     0 plInit (by decide),
   C5_amended.2.2.2 ["power_limit_uw: 1"] (by decide)⟩

/-- Claim C6: over an array of dict records whose `device_id` and `timestamp`
fields follow the data model (string, possibly absent or `null`), a record is
included in `extract_and_group_data`'s output iff its `device_id` is a
non-empty string, its `timestamp` is a non-empty string, and its `value` is
present (not missing and not `null`): the output is exactly the grouping of
the records passing that check, each contributing one grouped entry; in
particular a record whose `value` is exactly 0 is retained in its device's
series. -/
theorem C6_validation (xs : List Json) (h1 : xs.all isObjB = true)
    (h3 : xs.all typedRecB = true) :
    extract_and_group_data (Json.arr xs) =
      Except.ok (specGroup [] (xs.filter validRecordB)) ∧
    (∀ fs, Json.obj fs ∈ xs →
      validRecordB (Json.obj fs) =
        (nonEmptyStrFieldB fs "device_id" && nonEmptyStrFieldB fs "timestamp" &&
          (pyGet fs "value").isSome)) ∧
    totalLen (specGroup [] (xs.filter validRecordB)) = (xs.filter validRecordB).length ∧
    extract_and_group_data (Json.arr [Json.obj [("device_id", Json.str "d"),
      ("timestamp", Json.str "t"), ("value", Json.num 0)]]) =
      Except.ok [(Json.str "d", [⟨Json.str "t", Json.num 0⟩])] := by
  have h2 : xs.all hashIdB = true := by
    rw [List.all_eq_true] at h3 ⊢
    intro j hj
    exact typedRec_hashId j (h3 j hj)
  refine ⟨?_, ?_, ?_, rfl⟩
  · rw [extract_arr, processRecords_spec xs [] h1 h2, specGroup_filter]
  · intro fs hmem
    refine validRecordB_typed fs ?_
    rw [List.all_eq_true] at h3
    exact h3 _ hmem
  · rw [totalLen_specGroup]
    have hff : (xs.filter validRecordB).filter validRecordB = xs.filter validRecordB :=
      List.filter_eq_self.mpr (fun a ha => List.of_mem_filter ha)
    rw [hff]
    simp [totalLen]

/-- Witness for C6 at a concrete input: a record with `value` exactly 0 (kept)
and a record with a `null` `device_id` (dropped). -/
theorem C6_validation_witness :
    ([Json.obj [("device_id", Json.str "a"), ("timestamp", Json.str "t"),
        ("value", Json.num 0)],
      Json.obj [("device_id", Json.null), ("timestamp", Json.str "u"),
        ("value", Json.num 1)]].all isObjB = true) ∧
    ([Json.obj [("device_id", Json.str "a"), ("timestamp", Json.str "t"),
        ("value", Json.num 0)],
      Json.obj [("device_id", Json.null), ("timestamp", Json.str "u"),
        ("value", Json.num 1)]].all typedRecB = true) ∧
    validRecordB (Json.obj [("device_id", Json.null), ("timestamp", Json.str "u"),
        ("value", Json.num 1)]) =
      (nonEmptyStrFieldB [("device_id", Json.null), ("timestamp", Json.str "u"),
          ("value", Json.num 1)] "device_id" &&
        nonEmptyStrFieldB [("device_id", Json.null), ("timestamp", Json.str "u"),
          ("value", Json.num 1)] "timestamp" &&
        (pyGet [("device_id", Json.null), ("timestamp", Json.str "u"),
          ("value", Json.num 1)] "value").isSome) :=
  ⟨by decide, by decide,
   (C6_validation [Json.obj [("device_id", Json.str "a"), ("timestamp", Json.str "t"),
        ("value", Json.num 0)],
      Json.obj [("device_id", Json.null), ("timestamp", Json.str "u"),
        ("value", Json.num 1)]] (by decide) (by decide)).2.1
     [("device_id", Json.null), ("timestamp", Json.str "u"), ("value", Json.num 1)]
     (List.mem_cons_of_mem _ (List.mem_cons_self _ _))⟩

/-- Claim C8: in the sorting step of `write_csv_files`, every device's series
is sorted by timestamp (the order `tsle` compares the timestamp strings, which
is chronological order for ISO-8601 timestamps), the sort is stable — for any
fixed timestamp `t` the records carrying `t` appear in their original relative
order — and the sorting step is idempotent: applying it twice to the grouped
data yields the same series as applying it once. -/
theorem C8_sorted_stable_idem :
    (∀ (g : GroupState) (k : Json) (s : List GRec), (k, s) ∈ write_csv_files_sort g →
      s.Sorted tsle) ∧
    (∀ (rs : List GRec) (t : String),
      (sortSeries rs).filter (tsIsB t) = rs.filter (tsIsB t)) ∧
    (∀ g : GroupState, write_csv_files_sort (write_csv_files_sort g) = write_csv_files_sort g) := by
  refine ⟨?_, sortSeries_stable, ?_⟩
  · intro g k s hmem
    unfold write_csv_files_sort at hmem
    obtain ⟨p, _, hpe⟩ := List.mem_map.mp hmem
    have hs : sortSeries p.2 = s := congrArg Prod.snd hpe
    rw [← hs]
    exact sortSeries_sorted p.2
  · intro g
    induction g with
    | nil => rfl
    | cons p rest ih =>
      show ((p.1, sortSeries (sortSeries p.2)) ::
          write_csv_files_sort (write_csv_files_sort rest)) =
        (p.1, sortSeries p.2) :: write_csv_files_sort rest
      rw [sortSeries_idem, ih]

/-- Witness for C8: the sort of a concrete two-record series is sorted. -/
theorem C8_sorted_stable_idem_witness :
    (sortSeries [⟨Json.str "b", Json.num 1⟩, ⟨Json.str "a", Json.num 2⟩]).Sorted tsle :=
  C8_sorted_stable_idem.1
    [(Json.str "d", [⟨Json.str "b", Json.num 1⟩, ⟨Json.str "a", Json.num 2⟩])]
    (Json.str "d")
    (sortSeries [⟨Json.str "b", Json.num 1⟩, ⟨Json.str "a", Json.num 2⟩])
    (List.mem_singleton.mpr rfl)

/-- Claim C9: `load_chirop5_data` returns, in source order with no additional
sort, exactly the timestamps and absolute values of the entries whose
`device_id` equals the hardcoded target `'chirop-5'` (the signed value is
replaced by `abs(value)` unconditionally); on the spec's example input it
returns the timestamps `2024-01-01T00:00:00`, `2024-01-01T00:00:01` paired
with the values 42.5 and 10.0. -/
theorem C9_device_filtered :
    (∀ xs : List Json, xs.all lcOkB = true →
      load_chirop5_data (Json.arr xs) =
        Except.ok (xs.filterMap lcTs, xs.filterMap lcVal)) ∧
    (load_chirop5_data (Json.arr [
        Json.obj [("device_id", Json.str "chirop-5"),
          ("timestamp", Json.str "2024-01-01T00:00:00"), ("value", Json.num (-85 / 2))],
        Json.obj [("device_id", Json.str "chirop-5"),
          ("timestamp", Json.str "2024-01-01T00:00:01"), ("value", Json.num 10)]]) =
      Except.ok (["2024-01-01T00:00:00", "2024-01-01T00:00:01"], [85 / 2, 10]) ∧
     (["2024-01-01T00:00:00", "2024-01-01T00:00:01"].zip ([85 / 2, 10] : List ℚ) =
       [("2024-01-01T00:00:00", (85 / 2 : ℚ)), ("2024-01-01T00:00:01", 10)])) := by
  constructor
  · intro xs h
    rw [show load_chirop5_data (Json.arr xs) = lcProcess xs from rfl]
    exact lcProcess_spec xs h
  · constructor
    · have h : load_chirop5_data (Json.arr [
          Json.obj [("device_id", Json.str "chirop-5"),
            ("timestamp", Json.str "2024-01-01T00:00:00"), ("value", Json.num (-85 / 2))],
          Json.obj [("device_id", Json.str "chirop-5"),
            ("timestamp", Json.str "2024-01-01T00:00:01"), ("value", Json.num 10)]]) =
          Except.ok (["2024-01-01T00:00:00", "2024-01-01T00:00:01"],
            [|(-85 / 2 : ℚ)|, |(10 : ℚ)|]) := rfl
      rw [h]
      norm_num
    · rfl

/-- Witness for C9: the general characterization applied to a single entry
belonging to another device, which contributes nothing. -/
theorem C9_device_filtered_witness :
    load_chirop5_data (Json.arr [Json.obj [("device_id", Json.str "other")]]) =
      Except.ok (([Json.obj [("device_id", Json.str "other")]].filterMap lcTs),
        ([Json.obj [("device_id", Json.str "other")]].filterMap lcVal)) :=
  C9_device_filtered.1 [Json.obj [("device_id", Json.str "other")]] (by decide)
